import Mathlib

/-!
Verification of the realtime feed synchronization core specified for the
ExplorewithKairu community hub (source: src/public/src/KairuCommunityHub.jsx).

The source is a React client over a hosted realtime database.  The update
logic that lives in the client (like toggling in handleLike, comment and post
submission guards in handleAddComment and handleSubmit, mention resolution in
formatTextContent, timestamp humanization in formatTimestamp) is embedded
directly from the source.  The parts of the specified FeedStore /
SubscriptionHub core that the source delegates to the backend SDK (id and
sequence assignment, snapshot ordering, event merge, subscription fan-out)
are modelled from the spec and marked as such in their doc comments.
-/

namespace KairuHub

/-- A comment on a post.  Fields `author`, `text`, `timestamp` embed the
source comment object built in handleAddComment (lines 195-199): userId,
text, timestamp.  `seq` is the per-post sequence number of the spec data
model (section 3); the source has no such field, the backend assigns
ordering, so it is modelled from the spec. -/
structure Comment where
  author : String
  text : String
  timestamp : Int
  seq : Nat
deriving DecidableEq, Repr

/-- A post.  Mirrors the document created in handleSubmit (lines 349-355):
author (userId), `body` (content), creation `timestamp`, `likes` array of
liker identity strings, `comments` array.  `id` is the document id assigned
by the backend, modelled from the spec as an opaque natural number. -/
structure Post where
  id : Nat
  author : String
  body : String
  timestamp : Int
  likes : List String
  comments : List Comment
deriving DecidableEq, Repr

/-- Error taxonomy of spec section 7 (the cases relevant to the mutating
store operations). -/
inductive Err where
  | notFound
  | invalidInput
deriving DecidableEq, Repr

/-- Modelled from the spec: the FeedStore state.  The source keeps posts in
the backend database; `posts` is the canonical collection, `nextId` the id
supply (the backend assigns fresh document ids on addDoc), `clock` the
timestamp supply (the backend assigns serverTimestamp()). -/
structure Store where
  posts : List Post
  nextId : Nat
  clock : Int
deriving DecidableEq, Repr

/-- The JavaScript value.trim() used by handleSubmit and handleAddComment:
leading and trailing whitespace characters are removed, as structural
recursion over the character data. -/
def jsTrim (s : String) : String :=
  ⟨((s.data.dropWhile Char.isWhitespace).reverse.dropWhile Char.isWhitespace).reverse⟩

/-- Embeds handleLike (lines 169-181): if the identity is already in the
likes array it is filtered out, otherwise it is appended; only the `likes`
field of the post is written back.  The boolean result is modelled from the
spec (section 4.1: `toggleLike` returns `false` on unlike and `true` on
like); the source's two branches correspond exactly to the two results. -/
def toggleLike (p : Post) (identity : String) : Post × Bool :=
  if identity ∈ p.likes then
    ({ p with likes := p.likes.filter (fun i => i ≠ identity) }, false)
  else
    ({ p with likes := p.likes ++ [identity] }, true)

/-- `n` repeated toggleLike calls with the same identity on the same post. -/
def toggleN (p : Post) (identity : String) : Nat → Post
  | 0 => p
  | Nat.succ n => (toggleLike (toggleN p identity n) identity).1

/-- Modelled from the spec: the next comment sequence number for a post,
max existing + 1 (section 4.1 addComment); the source has no sequence
numbers, ordering is delegated to the backend. -/
def nextSeq (p : Post) : Nat := (p.comments.map Comment.seq).foldr max 0 + 1

/-- The comment append of handleAddComment (lines 195-203): a comment
object with the author, trimmed text and current timestamp is appended to
the post's comments array (arrayUnion on a fresh element appends).  The
assigned `seq` is modelled from the spec (section 4.1). -/
def addCommentToPost (p : Post) (author text : String) (now : Int) : Post :=
  { p with comments := p.comments ++
      [{ author := author, text := text, timestamp := now, seq := nextSeq p }] }

/-- The document built by handleSubmit (lines 349-355): the author, the
trimmed content, the current timestamp, an empty likes array and an empty
comments array; the fresh id and the timestamp come from the store supplies
(in the source the backend assigns both on addDoc). -/
def freshPost (s : Store) (author body : String) : Post :=
  { id := s.nextId, author := author, body := jsTrim body,
    timestamp := s.clock, likes := [], comments := [] }

/-- Modelled from the spec: FeedStore.createPost, refusing a blank body and
inserting `freshPost` (see the comment there); returns the fresh id. -/
def createPost (s : Store) (author body : String) : Store × Except Err Nat :=
  if jsTrim body = "" then (s, Except.error Err.invalidInput)
  else
    ({ posts := s.posts ++ [freshPost s author body],
       nextId := s.nextId + 1, clock := s.clock + 1 },
     Except.ok s.nextId)

/-- Modelled from the spec: FeedStore.addComment (sections 4.1 and 7),
wrapping handleAddComment (lines 188-203): an unknown post id fails with
NotFound, a body that is empty after trimming fails with InvalidInput (the
source silently refuses blank comments with the same trim test), and on
success the comment is appended to the addressed post and the assigned
sequence number returned.  On failure the store is returned unchanged. -/
def addComment (s : Store) (postId : Nat) (author body : String) :
    Store × Except Err Nat :=
  match s.posts.find? (fun p => p.id == postId) with
  | none => (s, Except.error Err.notFound)
  | some p =>
      if jsTrim body = "" then (s, Except.error Err.invalidInput)
      else
        ({ s with
            posts := s.posts.map (fun q =>
              if q.id = postId then addCommentToPost q author (jsTrim body) s.clock else q),
            clock := s.clock + 1 },
         Except.ok (nextSeq p))

/-- Modelled from the spec: FeedStore.toggleLike at store level (section
4.1), applying the handleLike update to the addressed post and failing with
NotFound on an unknown post id. -/
def storeToggleLike (s : Store) (postId : Nat) (identity : String) :
    Store × Except Err Bool :=
  match s.posts.find? (fun p => p.id == postId) with
  | none => (s, Except.error Err.notFound)
  | some p =>
      ({ s with posts := s.posts.map (fun q =>
          if q.id = postId then (toggleLike q identity).1 else q) },
       Except.ok (toggleLike p identity).2)

/-- Snapshot order (spec section 4.1): timestamp descending, ties broken by
id ascending.  The source delegates this to the backend live query
(usePosts, line 126: orderBy timestamp desc, document-id tie break), so the
relation is modelled from the spec. -/
def postLe (p q : Post) : Prop :=
  q.timestamp < p.timestamp ∨ (p.timestamp = q.timestamp ∧ p.id ≤ q.id)

/-- The strict part of `postLe`; on posts with distinct ids the two agree. -/
def postLt (p q : Post) : Prop :=
  q.timestamp < p.timestamp ∨ (p.timestamp = q.timestamp ∧ p.id < q.id)

instance : DecidableRel postLe := fun p q => by
  unfold postLe; exact inferInstance

instance : IsTotal Post postLe :=
  ⟨fun p q => by unfold postLe; omega⟩

instance : IsTrans Post postLe :=
  ⟨fun p q r hpq hqr => by unfold postLe at *; omega⟩

instance : IsAntisymm Post postLt :=
  ⟨fun p q hpq hqp => by unfold postLt at *; omega⟩

/-- Modelled from the spec: FeedStore.snapshot (section 4.1) returns the
posts sorted newest-creation-first with id tie break.  The source receives
this ordering ready-made from the backend query (usePosts, lines 124-133). -/
def snapshot (posts : List Post) : List Post := List.insertionSort postLe posts

/-- Comment order of the spec data model (section 3): creation time
ascending, ties broken by the sequence number.  The source sorts comments
for display by timestamp seconds ascending only (PostItem, line 213). -/
def commentLe (c d : Comment) : Prop :=
  c.timestamp < d.timestamp ∨ (c.timestamp = d.timestamp ∧ c.seq ≤ d.seq)

/-- Modelled from the spec: a remote comment event as redelivered by the
external channel (sections 4.1 and 6); identity is the (author, sequence
number) pair. -/
structure CommentEvent where
  author : String
  seq : Nat
  text : String
  timestamp : Int
deriving DecidableEq, Repr

/-- Does a stored comment carry the event's (author, sequence number) key? -/
def commentKeyMatches (e : CommentEvent) (c : Comment) : Bool :=
  c.author == e.author && c.seq == e.seq

/-- Modelled from the spec: the merge of a remote comment event (section
4.1 merge policy): comments are deduplicated by (author, sequence number);
a comment whose key is already present is dropped, otherwise it is
appended.  In the source this dedup is the backend arrayUnion merge. -/
def applyCommentEvent (p : Post) (e : CommentEvent) : Post :=
  if p.comments.any (commentKeyMatches e) then p
  else { p with comments := p.comments ++
      [{ author := e.author, text := e.text, timestamp := e.timestamp, seq := e.seq }] }

/-- Modelled from the spec: a remote like-toggle-state event, carrying the
liker identity and the desired membership state (section 4.1: likes are
deduplicated by identity). -/
structure LikeEvent where
  identity : String
  liked : Bool
deriving DecidableEq, Repr

/-- Modelled from the spec: the merge of a remote like-toggle-state event;
a liked state inserts the identity only if absent, an unliked state removes
it (same filter as handleLike, line 174). -/
def applyLikeEvent (p : Post) (e : LikeEvent) : Post :=
  if e.liked then
    if e.identity ∈ p.likes then p
    else { p with likes := p.likes ++ [e.identity] }
  else { p with likes := p.likes.filter (fun i => i ≠ e.identity) }

/-- A store mutation, as issued through the UI handlers of the source. -/
inductive Mutation where
  | create (author body : String)
  | like (postId : Nat) (identity : String)
  | comment (postId : Nat) (author body : String)
deriving DecidableEq, Repr

/-- Apply a mutation to the store, keeping the store unchanged when the
operation fails. -/
def applyMutation (s : Store) : Mutation → Store
  | Mutation.create a b => (createPost s a b).1
  | Mutation.like pid i => (storeToggleLike s pid i).1
  | Mutation.comment pid a b => (addComment s pid a b).1

/-- Modelled from the spec: an event delivered to an observer (section
4.2): the synthetic initial snapshot delivered on subscribe, or a change
event carrying the snapshot after a mutation.  In the source both arrive
through the backend onSnapshot callback (usePosts, lines 128-147). -/
inductive Event where
  | initialSnap (snap : List Post)
  | change (snap : List Post)
deriving DecidableEq, Repr

/-- A step of the hub script: a store mutation, or the registration of the
observed subscriber. -/
inductive Action where
  | mutate (m : Mutation)
  | subscribeNow
deriving DecidableEq, Repr

/-- Modelled from the spec: SubscriptionHub state for one observed
subscriber (section 4.2): the store, whether the subscriber is registered,
and the events delivered to it so far, in delivery order. -/
structure HubState where
  store : Store
  subscribed : Bool
  inbox : List Event
deriving DecidableEq, Repr

/-- Modelled from the spec: one hub step (section 4.2).  Subscribing
immediately delivers the current snapshot as a synthetic initial event; a
mutation is applied to the store and its change event is delivered to the
subscriber only if it is registered. -/
def step (h : HubState) : Action → HubState
  | Action.subscribeNow =>
      { h with subscribed := true,
               inbox := h.inbox ++ [Event.initialSnap (snapshot h.store.posts)] }
  | Action.mutate m =>
      let s2 := applyMutation h.store m
      { store := s2, subscribed := h.subscribed,
        inbox := h.inbox ++ (if h.subscribed then [Event.change (snapshot s2.posts)] else []) }

/-- Run a hub script from a state. -/
def run (h : HubState) (script : List Action) : HubState := script.foldl step h

/-- The change events a registered subscriber receives for a sequence of
mutations from a given store state. -/
def mutEvents : Store → List Mutation → List Event
  | _, [] => []
  | s, m :: ms =>
      let s2 := applyMutation s m
      Event.change (snapshot s2.posts) :: mutEvents s2 ms

/-- The JavaScript receiver.startsWith(argument) test on strings, as list
prefix on the character data. -/
def jsStartsWith (s arg : String) : Bool := arg.data.isPrefixOf s.data

/-- Embeds the mention resolution of formatTextContent (line 51): a
mention is treated as a known user when some known user id starts with the
mentioned name. -/
def isKnownUser (allUsers : List String) (mentionedId : String) : Bool :=
  allUsers.any (fun u => jsStartsWith u mentionedId)

/-- The input space of formatTimestamp (lines 13-38), by the facets the
source inspects: null or undefined; a backend Timestamp object carrying
seconds (truthy, has toDate); a raw number of milliseconds (falsy exactly
when 0); a raw string with its parse result (falsy exactly when empty). -/
inductive TSInput where
  | jsNull
  | fsTs (seconds : Int)
  | numVal (millis : Int)
  | strVal (parse : Option Int) (empty : Bool)
deriving DecidableEq, Repr

/-- JavaScript falsiness of the input, as tested by line 14. -/
def TSInput.falsy : TSInput → Bool
  | TSInput.jsNull => true
  | TSInput.fsTs _ => false
  | TSInput.numVal m => m == 0
  | TSInput.strVal _ e => e

/-- The milliseconds-since-epoch value of the parsed date (lines 17-23):
toDate() of a backend Timestamp, or new Date(raw); none when the parse
gives an invalid date. -/
def TSInput.dateMillis : TSInput → Option Int
  | TSInput.jsNull => none
  | TSInput.fsTs s => some (s * 1000)
  | TSInput.numVal m => some m
  | TSInput.strVal p _ => p

/-- The plural suffix used on lines 31 and 33. -/
def pluralS (n : Int) : String := if n ≠ 1 then "s" else ""

/-- Modelled from the spec: the default branch calls
date.toLocaleDateString (en-US, Month Day, Year), an external runtime
facility; modelled as an injective rendering keyed by the date value. -/
def toLocaleDateString (millis : Int) : String :=
  "Month Day, Year of " ++ toString millis

/-- Embeds formatTimestamp (lines 13-38): a falsy input gives Just now; an
unparseable date gives Unknown time; otherwise the age in whole minutes
(floor) selects Just now, a minutes-ago string, an hours-ago string, or the
calendar date. -/
def formatTimestamp (now : Int) (timestamp : TSInput) : String :=
  if timestamp.falsy then "Just now"
  else
    match timestamp.dateMillis with
    | none => "Unknown time"
    | some d =>
        let diffInMinutes : Int := (now - d).fdiv 60000
        if diffInMinutes < 1 then "Just now"
        else if diffInMinutes < 60 then
          toString diffInMinutes ++ " minute" ++ pluralS diffInMinutes ++ " ago"
        else if diffInMinutes < 1440 then
          toString (diffInMinutes.fdiv 60) ++ " hour" ++ pluralS (diffInMinutes.fdiv 60) ++ " ago"
        else toLocaleDateString d

/-- The behaviour claimed for formatTimestamp, following the claim's words:
Just now exactly when the input is null or undefined or the age is under
one minute; Unknown time when the input cannot be parsed into a valid
date; relative strings under 24 hours; the calendar date otherwise.  Used
to compare the claim against the embedded source function. -/
def formatTimestampClaimed (now : Int) (timestamp : TSInput) : String :=
  match timestamp with
  | TSInput.jsNull => "Just now"
  | t =>
      match t.dateMillis with
      | none => "Unknown time"
      | some d =>
          let diffInMinutes : Int := (now - d).fdiv 60000
          if diffInMinutes < 1 then "Just now"
          else if diffInMinutes < 60 then
            toString diffInMinutes ++ " minute" ++ pluralS diffInMinutes ++ " ago"
          else if diffInMinutes < 1440 then
            toString (diffInMinutes.fdiv 60) ++ " hour" ++ pluralS (diffInMinutes.fdiv 60) ++ " ago"
          else toLocaleDateString d

/-- Fixture: a fresh post used for concrete witnesses. -/
def post1 : Post :=
  { id := 1, author := "alice", body := "Saw a heron", timestamp := 10,
    likes := [], comments := [] }

/-- Fixture: a remote comment event. -/
def ev1 : CommentEvent :=
  { author := "carol", seq := 1, text := "hi bob", timestamp := 20 }

/-- Fixture: a remote like-toggle-state event. -/
def likeEv1 : LikeEvent := { identity := "bob", liked := true }

/-- Fixture: a one-post store. -/
def store1 : Store := { posts := [post1], nextId := 2, clock := 30 }

/- ------------------------------------------------------------------ -/
/- Theorems.                                                          -/
/- ------------------------------------------------------------------ -/

theorem toggleLike_mem_iff (p : Post) (identity : String) :
    identity ∈ ((toggleLike p identity).1).likes ↔ identity ∉ p.likes := by
  unfold toggleLike
  by_cases h : identity ∈ p.likes <;> simp [h, List.mem_filter]

theorem toggleN_mem_iff (p : Post) (identity : String) (n : Nat) :
    identity ∈ (toggleN p identity n).likes ↔
      (if n % 2 = 0 then identity ∈ p.likes else identity ∉ p.likes) := by
  induction n with
  | zero => simp [toggleN]
  | succ n ih =>
    rw [toggleN, toggleLike_mem_iff, ih]
    rcases Nat.mod_two_eq_zero_or_one n with h | h
    · have h2 : (n + 1) % 2 = 1 := by omega
      simp [h, h2]
    · have h2 : (n + 1) % 2 = 0 := by omega
      simp [h, h2]

/-- Claim C2: for every existing post and identity, toggleLike removes the
identity from the like-set and returns false when the identity is already a
member, otherwise adds it and returns true; no other field of the post
changes. -/
theorem c2_toggleLike_correct (p : Post) (identity : String) :
    ((toggleLike p identity).1).id = p.id ∧
    ((toggleLike p identity).1).author = p.author ∧
    ((toggleLike p identity).1).body = p.body ∧
    ((toggleLike p identity).1).timestamp = p.timestamp ∧
    ((toggleLike p identity).1).comments = p.comments ∧
    (identity ∈ p.likes →
      (toggleLike p identity).2 = false ∧
      ∀ x, x ∈ ((toggleLike p identity).1).likes ↔ x ∈ p.likes ∧ x ≠ identity) ∧
    (identity ∉ p.likes →
      (toggleLike p identity).2 = true ∧
      ∀ x, x ∈ ((toggleLike p identity).1).likes ↔ x ∈ p.likes ∨ x = identity) := by
  unfold toggleLike
  by_cases h : identity ∈ p.likes <;>
    simp [h, List.mem_filter, List.mem_append]

theorem c2_toggleLike_correct_witness :
    "bob" ∉ post1.likes ∧
    (toggleLike post1 "bob").2 = true ∧
    "bob" ∈ ((toggleLike post1 "bob").1).likes := by
  have h := c2_toggleLike_correct post1 "bob"
  have hb : "bob" ∉ post1.likes := by decide
  exact ⟨hb, (h.2.2.2.2.2.2 hb).1, ((h.2.2.2.2.2.2 hb).2 "bob").mpr (Or.inr rfl)⟩

/-- Claim C3: after n toggleLike calls with the same identity on the same
post, starting from a state where the identity is not in the like-set, the
identity is a member of the like-set iff n is odd. -/
theorem c3_toggleLike_parity (p : Post) (identity : String) (n : Nat)
    (h : identity ∉ p.likes) :
    identity ∈ (toggleN p identity n).likes ↔ n % 2 = 1 := by
  rw [toggleN_mem_iff]
  rcases Nat.mod_two_eq_zero_or_one n with h2 | h2 <;> simp [h2, h]

theorem c3_toggleLike_parity_witness :
    "bob" ∉ post1.likes ∧
    ("bob" ∈ (toggleN post1 "bob" 3).likes ↔ 3 % 2 = 1) := by
  exact ⟨by decide, c3_toggleLike_parity post1 "bob" 3 (by decide)⟩

theorem applyCommentEvent_idem (p : Post) (e : CommentEvent) :
    applyCommentEvent (applyCommentEvent p e) e = applyCommentEvent p e := by
  by_cases hc : p.comments.any (commentKeyMatches e)
  · simp [applyCommentEvent, hc]
  · have hkey : commentKeyMatches e
        { author := e.author, text := e.text, timestamp := e.timestamp, seq := e.seq } = true := by
      simp [commentKeyMatches]
    have h2 : (p.comments ++
        [({ author := e.author, text := e.text, timestamp := e.timestamp,
            seq := e.seq } : Comment)]).any (commentKeyMatches e) = true := by
      simp [List.any_append, hkey]
    simp [applyCommentEvent, hc, h2]

theorem applyLikeEvent_idem (p : Post) (e : LikeEvent) :
    applyLikeEvent (applyLikeEvent p e) e = applyLikeEvent p e := by
  by_cases hl : e.liked
  · by_cases hm : e.identity ∈ p.likes
    · simp [applyLikeEvent, hl, hm]
    · have h2 : e.identity ∈ p.likes ++ [e.identity] := by simp
      simp [applyLikeEvent, hl, hm, h2]
  · have hff : (p.likes.filter (fun i => i ≠ e.identity)).filter
        (fun i => i ≠ e.identity) = p.likes.filter (fun i => i ≠ e.identity) := by
      apply List.filter_eq_self.mpr
      intro a ha
      exact (List.mem_filter.mp ha).2
    simp [applyLikeEvent, hl, hff]

/-- Claim C1: remote mutations merge idempotently per post: applying the
same like-toggle-state or the same comment event twice yields the same post
state as once (comment identity the (author, sequence number) pair, like
identity the liker identifier), and a redundant redelivery of an identical
comment leaves exactly one stored copy of that comment. -/
theorem c1_remote_merge_idempotent (p : Post) (e : CommentEvent) (l : LikeEvent)
    (h : p.comments.countP (commentKeyMatches e) = 0) :
    applyCommentEvent (applyCommentEvent p e) e = applyCommentEvent p e ∧
    applyLikeEvent (applyLikeEvent p l) l = applyLikeEvent p l ∧
    ((applyCommentEvent p e).comments.countP (commentKeyMatches e)) = 1 := by
  refine ⟨applyCommentEvent_idem p e, applyLikeEvent_idem p l, ?_⟩
  have hnone : ∀ c ∈ p.comments, ¬ commentKeyMatches e c = true :=
    List.countP_eq_zero.mp h
  have hany : p.comments.any (commentKeyMatches e) = false := by
    simp only [List.any_eq_false]
    intro c hc
    exact hnone c hc
  have hkey : commentKeyMatches e
      { author := e.author, text := e.text, timestamp := e.timestamp, seq := e.seq } = true := by
    simp [commentKeyMatches]
  simp [applyCommentEvent, hany, List.countP_append, h, hkey]

theorem c1_remote_merge_idempotent_witness :
    post1.comments.countP (commentKeyMatches ev1) = 0 ∧
    ((applyCommentEvent post1 ev1).comments.countP (commentKeyMatches ev1)) = 1 := by
  exact ⟨by decide, (c1_remote_merge_idempotent post1 ev1 likeEv1 (by decide)).2.2⟩

/-- Claim C6: addComment fails with NotFound on an unknown post id, and
with InvalidInput when the body is empty after trimming; in both failure
cases the error is returned synchronously and the store is entirely
unchanged. -/
theorem c6_addComment_error_semantics (s : Store) (postId : Nat) (author body : String) :
    ((∀ p ∈ s.posts, p.id ≠ postId) →
      addComment s postId author body = (s, Except.error Err.notFound)) ∧
    ((∃ p ∈ s.posts, p.id = postId) → jsTrim body = "" →
      addComment s postId author body = (s, Except.error Err.invalidInput)) := by
  constructor
  · intro h
    have hfind : s.posts.find? (fun p => p.id == postId) = none := by
      apply List.find?_eq_none.mpr
      intro p hp
      simp [h p hp]
    simp [addComment, hfind]
  · rintro ⟨p, hp, hid⟩ hb
    have hsome : (s.posts.find? (fun p => p.id == postId)).isSome := by
      rw [List.find?_isSome]
      exact ⟨p, hp, by simp [hid]⟩
    obtain ⟨q, hq⟩ := Option.isSome_iff_exists.mp hsome
    simp [addComment, hq, hb]

theorem c6_addComment_error_semantics_witness :
    addComment store1 99 "carol" "hi" = (store1, Except.error Err.notFound) ∧
    addComment store1 1 "carol" "   " = (store1, Except.error Err.invalidInput) := by
  constructor
  · exact (c6_addComment_error_semantics store1 99 "carol" "hi").1 (by decide)
  · exact (c6_addComment_error_semantics store1 1 "carol" "   ").2
      ⟨post1, by decide, by decide⟩ (by decide)

/-- Claim C7: createPost requires a non-empty body, assigns a new unique id
and creation timestamp, inserts the post with empty like-set and empty
comment sequence, and returns the new id; a snapshot taken immediately
afterwards contains the new post with its body, no likes and no comments. -/
theorem c7_createPost_correct (s : Store) (author body : String)
    (hbody : jsTrim body ≠ "")
    (hfresh : ∀ p ∈ s.posts, p.id < s.nextId) :
    ∃ s2 : Store,
      createPost s author body = (s2, Except.ok s.nextId) ∧
      (∀ p ∈ s.posts, p.id ≠ s.nextId) ∧
      (∃ p ∈ snapshot s2.posts, p.id = s.nextId ∧ p.author = author ∧
        p.body = jsTrim body ∧ p.timestamp = s.clock ∧ p.likes = [] ∧ p.comments = []) := by
  refine ⟨⟨s.posts ++ [freshPost s author body], s.nextId + 1, s.clock + 1⟩, ?_, ?_, ?_⟩
  · simp [createPost, hbody]
  · intro p hp
    exact Nat.ne_of_lt (hfresh p hp)
  · refine ⟨freshPost s author body, ?_, rfl, rfl, rfl, rfl, rfl, rfl⟩
    show freshPost s author body ∈ List.insertionSort postLe (s.posts ++ [freshPost s author body])
    rw [(List.perm_insertionSort postLe _).mem_iff]
    simp

theorem c7_createPost_correct_witness :
    (createPost store1 "alice" " Saw a heron ").2 = Except.ok 2 := by
  obtain ⟨s2, h1, h2, h3⟩ := c7_createPost_correct store1 "alice" " Saw a heron "
    (by decide) (by decide)
  rw [h1]
  rfl

theorem mem_le_foldr_max (n : Nat) (l : List Nat) (h : n ∈ l) :
    n ≤ l.foldr max 0 := by
  induction l with
  | nil => simp at h
  | cons a l ih =>
    rcases List.mem_cons.mp h with h | h
    · subst h
      exact Nat.le_max_left _ _
    · exact Nat.le_trans (ih h) (Nat.le_max_right _ _)

theorem seq_lt_nextSeq (p : Post) (c : Comment) (h : c ∈ p.comments) :
    c.seq < nextSeq p := by
  have hm : c.seq ∈ p.comments.map Comment.seq := List.mem_map.mpr ⟨c, h, rfl⟩
  have h2 := mem_le_foldr_max _ _ hm
  unfold nextSeq
  omega

/-- Claim C5: for every post the stored comment sequence is kept in
ascending creation-time order, ties broken by a sequence number unique
within the parent post, and addComment appends while preserving this
ascending order (given that the clock never runs behind the stored
comments). -/
theorem c5_comment_order_preserved (p : Post) (author text : String) (now : Int)
    (hsorted : List.Pairwise commentLe p.comments)
    (hnd : (p.comments.map Comment.seq).Nodup)
    (hclock : ∀ c ∈ p.comments, c.timestamp ≤ now) :
    (addCommentToPost p author text now).comments
      = p.comments ++ [{ author := author, text := text, timestamp := now, seq := nextSeq p }] ∧
    List.Pairwise commentLe (addCommentToPost p author text now).comments ∧
    ((addCommentToPost p author text now).comments.map Comment.seq).Nodup := by
  refine ⟨rfl, ?_, ?_⟩
  · unfold addCommentToPost
    simp only []
    apply List.pairwise_append.mpr
    refine ⟨hsorted, List.pairwise_singleton _ _, ?_⟩
    intro a ha b hb
    have hb2 : b = { author := author, text := text, timestamp := now, seq := nextSeq p } := by
      simpa using hb
    subst hb2
    have ht := hclock a ha
    have hs := seq_lt_nextSeq p a ha
    unfold commentLe
    simp only []
    omega
  · unfold addCommentToPost
    simp only [List.map_append, List.map_cons, List.map_nil]
    apply List.Nodup.append hnd (List.nodup_singleton _)
    intro a ha hb
    have hb2 : a = nextSeq p := by simpa using hb
    subst hb2
    obtain ⟨c, hc, hseq⟩ := List.mem_map.mp ha
    have := seq_lt_nextSeq p c hc
    omega

theorem c5_comment_order_preserved_witness :
    (addCommentToPost post1 "carol" "hi" 20).comments
      = [{ author := "carol", text := "hi", timestamp := 20, seq := 1 }] ∧
    List.Pairwise commentLe (addCommentToPost post1 "carol" "hi" 20).comments := by
  have h := c5_comment_order_preserved post1 "carol" "hi" 20
    (by simp [post1]) (by simp [post1]) (by simp [post1])
  exact ⟨h.1, h.2.1⟩

theorem snapshot_pairwise_lt (l : List Post)
    (hl : (l.map Post.id).Nodup) : List.Pairwise postLt (snapshot l) := by
  have hsort : List.Sorted postLe (snapshot l) := List.sorted_insertionSort postLe l
  have hperm : (snapshot l).Perm l := List.perm_insertionSort postLe l
  have hndl : ((snapshot l).map Post.id).Nodup := ((hperm.map Post.id).nodup_iff).mpr hl
  have hpw : (snapshot l).Pairwise (fun a b => a.id ≠ b.id) := List.pairwise_map.mp hndl
  refine (List.Pairwise.and hsort hpw).imp ?_
  intro a b hab
  obtain ⟨h1, h2⟩ := hab
  unfold postLe at h1
  unfold postLt
  omega

/-- Claim C4: snapshot returns the posts ordered by creation timestamp
descending, ties broken by post id, and is deterministic: any two
arrangements of the same posts (with the ids unique, as the store
guarantees) produce the same snapshot. -/
theorem c4_snapshot_deterministic (l1 l2 : List Post)
    (hperm : l1.Perm l2) (hnd : (l1.map Post.id).Nodup) :
    snapshot l1 = snapshot l2 ∧
    List.Sorted postLe (snapshot l1) ∧
    (snapshot l1).Perm l1 := by
  have hs1 : List.Sorted postLe (snapshot l1) := List.sorted_insertionSort postLe l1
  have hp1 : (snapshot l1).Perm l1 := List.perm_insertionSort postLe l1
  have hp2 : (snapshot l2).Perm l2 := List.perm_insertionSort postLe l2
  have hnd2 : (l2.map Post.id).Nodup := ((hperm.map Post.id).nodup_iff).mp hnd
  have hperm2 : (snapshot l1).Perm (snapshot l2) :=
    hp1.trans (hperm.trans hp2.symm)
  have hlt1 := snapshot_pairwise_lt l1 hnd
  have hlt2 := snapshot_pairwise_lt l2 hnd2
  exact ⟨List.eq_of_perm_of_sorted hperm2 hlt1 hlt2, hs1, hp1⟩

theorem c4_snapshot_deterministic_witness :
    snapshot [post1, freshPost store1 "dana" "later post"]
      = snapshot [freshPost store1 "dana" "later post", post1] := by
  have h := c4_snapshot_deterministic
    [post1, freshPost store1 "dana" "later post"]
    [freshPost store1 "dana" "later post", post1]
    (List.Perm.swap _ _ _) (by decide)
  exact h.1

theorem run_append (h : HubState) (a b : List Action) :
    run h (a ++ b) = run (run h a) b := List.foldl_append _ _ _ _

theorem run_mutations_unsubscribed (s0 : Store) (ms : List Mutation) :
    run { store := s0, subscribed := false, inbox := [] } (ms.map Action.mutate)
      = { store := ms.foldl applyMutation s0, subscribed := false, inbox := [] } := by
  induction ms generalizing s0 with
  | nil => rfl
  | cons m ms ih =>
    have h1 : run { store := s0, subscribed := false, inbox := ([] : List Event) }
        ((m :: ms).map Action.mutate)
      = run { store := applyMutation s0 m, subscribed := false, inbox := [] }
          (ms.map Action.mutate) := by
      simp [run, step]
    rw [h1, ih]
    rfl

theorem run_mutations_subscribed (s : Store) (inbox : List Event) (ms : List Mutation) :
    run { store := s, subscribed := true, inbox := inbox } (ms.map Action.mutate)
      = { store := ms.foldl applyMutation s, subscribed := true,
          inbox := inbox ++ mutEvents s ms } := by
  induction ms generalizing s inbox with
  | nil => simp [run, mutEvents]
  | cons m ms ih =>
    have h1 : run { store := s, subscribed := true, inbox := inbox }
        ((m :: ms).map Action.mutate)
      = run { store := applyMutation s m, subscribed := true,
              inbox := inbox ++ [Event.change (snapshot (applyMutation s m).posts)] }
          (ms.map Action.mutate) := by
      simp [run, step]
    rw [h1, ih]
    simp [mutEvents]

/-- Claim C8: a subscriber that registers after any number of mutations
immediately receives exactly one synthetic initial event equal to the
snapshot at the moment of subscribing, and thereafter only the change
events of subsequent mutations, with no duplicate event for state already
covered by the initial snapshot. -/
theorem c8_late_subscriber_initial_event (s0 : Store) (pre post : List Mutation) :
    (run { store := s0, subscribed := false, inbox := [] }
        (pre.map Action.mutate ++ Action.subscribeNow :: post.map Action.mutate)).inbox
      = Event.initialSnap (snapshot (pre.foldl applyMutation s0).posts)
          :: mutEvents (pre.foldl applyMutation s0) post := by
  rw [run_append, run_mutations_unsubscribed]
  have h1 : run { store := pre.foldl applyMutation s0, subscribed := false, inbox := [] }
      (Action.subscribeNow :: post.map Action.mutate)
    = run { store := pre.foldl applyMutation s0, subscribed := true,
            inbox := [Event.initialSnap (snapshot (pre.foldl applyMutation s0).posts)] }
        (post.map Action.mutate) := rfl
  rw [h1, run_mutations_subscribed]
  simp

/-- Claim C9, counterexample: the claim states that a mention is resolved
as a known participant exactly when the mentioned name equals a known
identity string.  The source (formatTextContent, line 51) instead tests
whether some known identity starts with the mentioned name, so the mention
alice is resolved as known against the sole identity alice123 although it
equals no known identity. -/
theorem c9_mention_exact_match_counterexample :
    ¬ (isKnownUser ["alice123"] "alice" = true ↔ "alice" ∈ (["alice123"] : List String)) := by
  decide

/-- Claim C9 as amended: identity strings are treated as stable opaque
keys, and a mention is resolved as referring to a known participant if and
only if the mentioned name is a prefix of some known identity string (in
particular every exact match is resolved as known). -/
theorem c9_mention_prefix_resolution (allUsers : List String) (mentionedId : String) :
    (isKnownUser allUsers mentionedId = true ↔
      ∃ u ∈ allUsers, mentionedId.data.IsPrefix u.data) ∧
    (mentionedId ∈ allUsers → isKnownUser allUsers mentionedId = true) := by
  have hch : ∀ u : String, jsStartsWith u mentionedId = true ↔
      mentionedId.data.IsPrefix u.data := by
    intro u
    unfold jsStartsWith
    exact List.isPrefixOf_iff_prefix
  constructor
  · rw [isKnownUser, List.any_eq_true]
    constructor
    · rintro ⟨u, hu, hs⟩
      exact ⟨u, hu, (hch u).mp hs⟩
    · rintro ⟨u, hu, hs⟩
      exact ⟨u, hu, (hch u).mpr hs⟩
  · intro h
    rw [isKnownUser, List.any_eq_true]
    exact ⟨mentionedId, h, (hch mentionedId).mpr (List.prefix_refl _)⟩

theorem c9_mention_prefix_resolution_witness :
    isKnownUser ["alice123"] "alice123" = true :=
  (c9_mention_prefix_resolution ["alice123"] "alice123").2 (by decide)

/-- Claim C10, counterexample: the claim enumerates Just now only for a
null or undefined timestamp or an age under one minute, and a calendar
date for parseable timestamps older than 24 hours.  The source tests
JavaScript falsiness (line 14), so the raw number 0 - a valid parseable
date two days before the reference instant here - yields Just now instead
of the calendar date the claim requires. -/
theorem c10_claimed_counterexample :
    formatTimestamp 172800000 (TSInput.numVal 0) = "Just now" ∧
    formatTimestampClaimed 172800000 (TSInput.numVal 0) = toLocaleDateString 0 ∧
    formatTimestamp 172800000 (TSInput.numVal 0)
      ≠ formatTimestampClaimed 172800000 (TSInput.numVal 0) := by
  refine ⟨rfl, rfl, ?_⟩
  decide

/-- Claim C10 as amended: formatTimestamp is total and returns a string for
every input: Just now when the input is falsy (null or undefined, the
number 0, or an empty string) or when the age is under one minute
(including future timestamps); Unknown time when the input cannot be
parsed into a valid date; a relative minutes-ago string for ages from one
minute up to one hour; a relative hours-ago string for ages from one hour
up to 24 hours; and a calendar date string otherwise. -/
theorem c10_formatTimestamp_cases (now : Int) (t : TSInput) :
    (t.falsy = true → formatTimestamp now t = "Just now") ∧
    (t.falsy = false → t.dateMillis = none → formatTimestamp now t = "Unknown time") ∧
    (∀ d, t.falsy = false → t.dateMillis = some d → now - d < 60000 →
      formatTimestamp now t = "Just now") ∧
    (∀ d, t.falsy = false → t.dateMillis = some d → 60000 ≤ now - d → now - d < 3600000 →
      formatTimestamp now t
        = toString ((now - d).fdiv 60000) ++ " minute" ++ pluralS ((now - d).fdiv 60000) ++ " ago"
      ∧ 1 ≤ (now - d).fdiv 60000 ∧ (now - d).fdiv 60000 < 60) ∧
    (∀ d, t.falsy = false → t.dateMillis = some d → 3600000 ≤ now - d → now - d < 86400000 →
      formatTimestamp now t
        = toString (((now - d).fdiv 60000).fdiv 60) ++ " hour"
            ++ pluralS (((now - d).fdiv 60000).fdiv 60) ++ " ago"
      ∧ 1 ≤ ((now - d).fdiv 60000).fdiv 60 ∧ ((now - d).fdiv 60000).fdiv 60 < 24) ∧
    (∀ d, t.falsy = false → t.dateMillis = some d → 86400000 ≤ now - d →
      formatTimestamp now t = toLocaleDateString d) := by
  constructor
  · intro hf
    simp [formatTimestamp, hf]
  constructor
  · intro hf hd
    simp [formatTimestamp, hf, hd]
  constructor
  · intro d hf hd hlt
    have hc : (now - d).fdiv 60000 < 1 := by
      rw [Int.fdiv_eq_ediv _ (by norm_num)]
      omega
    simp [formatTimestamp, hf, hd, hc]
  constructor
  · intro d hf hd h1 h2
    have hge : ¬ ((now - d).fdiv 60000 < 1) := by
      rw [Int.fdiv_eq_ediv _ (by norm_num)]
      omega
    have hlt : (now - d).fdiv 60000 < 60 := by
      rw [Int.fdiv_eq_ediv _ (by norm_num)]
      omega
    refine ⟨?_, ?_, hlt⟩
    · simp [formatTimestamp, hf, hd, hge, hlt]
    · rw [Int.fdiv_eq_ediv _ (by norm_num)]
      omega
  constructor
  · intro d hf hd h1 h2
    have hge : ¬ ((now - d).fdiv 60000 < 1) := by
      rw [Int.fdiv_eq_ediv _ (by norm_num)]
      omega
    have hge60 : ¬ ((now - d).fdiv 60000 < 60) := by
      rw [Int.fdiv_eq_ediv _ (by norm_num)]
      omega
    have hlt1440 : (now - d).fdiv 60000 < 1440 := by
      rw [Int.fdiv_eq_ediv _ (by norm_num)]
      omega
    refine ⟨?_, ?_, ?_⟩
    · simp [formatTimestamp, hf, hd, hge, hge60, hlt1440]
    · rw [Int.fdiv_eq_ediv _ (by norm_num), Int.fdiv_eq_ediv _ (by norm_num)]
      omega
    · rw [Int.fdiv_eq_ediv _ (by norm_num), Int.fdiv_eq_ediv _ (by norm_num)]
      omega
  · intro d hf hd h1
    have hge : ¬ ((now - d).fdiv 60000 < 1) := by
      rw [Int.fdiv_eq_ediv _ (by norm_num)]
      omega
    have hge60 : ¬ ((now - d).fdiv 60000 < 60) := by
      rw [Int.fdiv_eq_ediv _ (by norm_num)]
      omega
    have hge1440 : ¬ ((now - d).fdiv 60000 < 1440) := by
      rw [Int.fdiv_eq_ediv _ (by norm_num)]
      omega
    simp [formatTimestamp, hf, hd, hge, hge60, hge1440]

theorem c10_formatTimestamp_cases_witness :
    formatTimestamp 0 TSInput.jsNull = "Just now" :=
  (c10_formatTimestamp_cases 0 TSInput.jsNull).1 rfl

end KairuHub
